import Mathlib

/-!
# deadcrawl: the link checker of `main.go`

A shallow embedding of `main.go` (package `main`): the `LinkChecker` session, the
recursive walk `CheckLinks`, `parseLink`, `checkLink`, `fetchHTML` and `main`.

Conventions of the embedding.

* A Go `string` is a Lean `String`; a Go `error` is the text its `Error()` method yields
  (`Err`), and a `nil` error is `none` / `Except.ok`.
* Standard output and standard error are the lists of the chunks written to them, oldest
  first; a chunk that ends in `"\n"` is a line.
* A `*html.Node` tree (first child / next sibling links) is a finite tree with an ordered
  list of children; the loop `for child := node.FirstChild; child != nil; child =
  child.NextSibling` is the iteration over that list.
* Functions the program imports from other packages (`net/url`, `net/http`,
  `golang.org/x/net/html`, `golang.org/x/net/publicsuffix`, `bufio`, `strings`) are the
  fields of `Lib`, and the properties of the program are proved for every `Lib`.  Two
  library functions are spelled out, because their control flow decides a property of the
  program: `(*url.URL).ResolveReference` and the request checks of `http.Get`.
* `Event` is a ghost log of the library calls the walk makes, in the order it makes them.
-/

namespace Deadcrawl

/-! ## Data model -/

/-- The text of a Go `error`. -/
abbrev Err := String

/-- Type `url.Userinfo`. -/
structure Userinfo where
  username : String
  password : String
  passwordSet : Bool
deriving DecidableEq, Repr

/-- Type `url.URL`, field by field. -/
structure URL where
  Scheme : String
  Opaque : String
  User : Option Userinfo
  Host : String
  Path : String
  RawPath : String
  OmitHost : Bool
  ForceQuery : Bool
  RawQuery : String
  Fragment : String
  RawFragment : String
deriving DecidableEq, Repr

/-- Type `html.NodeType`. -/
inductive NodeType where
  | ErrorNode
  | TextNode
  | DocumentNode
  | ElementNode
  | CommentNode
  | DoctypeNode
  | RawNode
deriving DecidableEq, Repr

/-- Type `html.Attribute`. -/
structure Attribute where
  Namespace : String
  Key : String
  Val : String
deriving DecidableEq, Repr

/-- Type `html.Node`: node type, `Data` (the tag name of an element), the attributes in
source order and the children in document order. -/
inductive Node where
  | mk (Typ : NodeType) (Data : String) (Attr : List Attribute) (children : List Node)

/-- Type `http.Request` as far as `checkLink` builds it: the method and URL text given to
`http.NewRequest` and the header fields set afterwards. -/
structure Request where
  Method : String
  URL : String
  Header : List (String × String)
deriving DecidableEq, Repr

/-- Method `http.Header.Set` for a key already in canonical form: the key's former values
are replaced by the single value. -/
def Request.setHeader (req : Request) (key value : String) : Request :=
  { req with Header := req.Header.filter (fun kv => kv.1 ≠ key) ++ [(key, value)] }

/-- Type `http.Response`: only the status code is inspected. -/
structure Response where
  StatusCode : Int
deriving DecidableEq, Repr

/-- Ghost log entry: one library call made by the walk. -/
inductive Event where
  /-- `lc.parseLink(href)` is entered with this `href`. -/
  | resolve (href : String)
  /-- `publicsuffix.EffectiveTLDPlusOne` is asked about this host name. -/
  | filter (host : String)
  /-- `lc.client.Do(req)` was called and answered with `res`. -/
  | probe (req : Request) (res : Except Err Response)

/-- The kind of call behind an event, without the answer. -/
inductive Call where
  | resolve (href : String)
  | filter (host : String)
  | probe (req : Request)
deriving DecidableEq, Repr

/-- Forget the answer of an event. -/
def Event.call : Event → Call
  | .resolve href => .resolve href
  | .filter host => .filter host
  | .probe req _ => .probe req

/-- The imported functions.  `clientDo` and `roundTrip` stand for the network: `clientDo`
sees the log of everything that happened before the request, so two probes of one URL may
be answered differently. -/
structure Lib where
  /-- Function `url.Parse`. -/
  urlParse : String → Except Err URL
  /-- Method `(*url.URL).String`. -/
  urlString : URL → String
  /-- Method `(*url.URL).Hostname`. -/
  hostname : URL → String
  /-- Method `(*url.URL).EscapedPath`. -/
  escapedPath : URL → String
  /-- Function `resolvePath` of `net/url`. -/
  resolvePath : String → String → String
  /-- Method `(*url.URL).setPath`: the new `Path` and `RawPath`, or its error. -/
  setPath : String → Except Err (String × String)
  /-- Function `publicsuffix.EffectiveTLDPlusOne`. -/
  effectiveTLDPlusOne : String → Except Err String
  /-- Function `http.NewRequest` with a `nil` body. -/
  newRequest : String → String → Except Err Request
  /-- Method `(*http.Client).Do` of the session's client. -/
  clientDo : List Event → Request → Except Err Response
  /-- The default transport serving the `GET` of `http.Get` for a URL it accepts: the
  response body, or the transport error. -/
  roundTrip : URL → Except Err String
  /-- The error of the default transport for a URL whose scheme is neither `http` nor
  `https` ("unsupported protocol scheme"). -/
  unsupportedScheme : URL → Err
  /-- The error of the default transport for a URL without host ("no Host in request
  URL"). -/
  noHost : URL → Err
  /-- Function `html.Parse` on a response body. -/
  htmlParse : String → Except Err Node
  /-- Method `(*bufio.Reader).ReadString` with delimiter newline, on the whole of standard
  input. -/
  readString : String → String
  /-- Function `strings.TrimSpace`. -/
  trimSpace : String → String

/-- Type `LinkChecker`; the `client` field is the zero `http.Client`, which carries no
state of its own. -/
structure LinkChecker where
  baseURL : URL
  deadLink : Bool
deriving DecidableEq, Repr

/-- The running process during the walk: the session, what was written to standard
output, and the ghost log. -/
structure Proc where
  lc : LinkChecker
  stdout : List String
  trace : List Event

/-- Write one chunk to standard output. -/
def Proc.print (p : Proc) (text : String) : Proc :=
  { p with stdout := p.stdout ++ [text] }

/-- Append one entry to the ghost log. -/
def Proc.log (p : Proc) (e : Event) : Proc :=
  { p with trace := p.trace ++ [e] }

/-! ## Library functions whose control flow matters -/

/-- Method `(*url.URL).setPath` applied inside `ResolveReference`, where its error is
ignored: on an error the fields keep the values copied from the reference. -/
def URL.withPath (L : Lib) (url : URL) (p : String) : URL :=
  match L.setPath p with
  | .ok (path, raw) => { url with Path := path, RawPath := raw }
  | .error _ => url

/-- Method `(*url.URL).ResolveReference` of `net/url` (RFC 3986 section 5.2), with `u` the
base. -/
def ResolveReference (L : Lib) (u ref : URL) : URL :=
  let url := ref
  let url := if ref.Scheme = "" then { url with Scheme := u.Scheme } else url
  if ref.Scheme ≠ "" ∨ ref.Host ≠ "" ∨ ref.User ≠ none then
    -- the "absoluteURI" or "net_path" cases
    url.withPath L (L.resolvePath (L.escapedPath ref) "")
  else if ref.Opaque ≠ "" then
    { url with User := none, Host := "", Path := "" }
  else
    let url :=
      if ref.Path = "" ∧ ref.ForceQuery = false ∧ ref.RawQuery = "" then
        let url := { url with RawQuery := u.RawQuery }
        if ref.Fragment = "" then
          { url with Fragment := u.Fragment, RawFragment := u.RawFragment }
        else url
      else url
    if ref.Path = "" ∧ u.Opaque ≠ "" then
      { url with Opaque := u.Opaque, User := none, Host := "", Path := "" }
    else
      -- the "abs_path" or "rel_path" cases
      let url := { url with Host := u.Host, User := u.User }
      url.withPath L (L.resolvePath (L.escapedPath u) (L.escapedPath ref))

/-- Function `strings.LastIndex(s, sep)` for a separator of one character: the position of
its last occurrence, `-1` if there is none.  Positions are counted in characters; the only
use is the comparison of two positions within one string, which comes out the same as
with byte offsets.  `i` is the position of the head of the list, `found` the last
occurrence before it. -/
def lastIndexFrom (sep : Char) : List Char → Int → Int → Int
  | [], _, found => found
  | c :: rest, i, found => lastIndexFrom sep rest (i + 1) (if c = sep then i else found)

/-- Function `hasPort` of `net/http`:
`strings.LastIndex(s, ":") > strings.LastIndex(s, "]")`. -/
def hasPort (s : String) : Bool :=
  decide (lastIndexFrom ':' s.data 0 (-1) > lastIndexFrom ']' s.data 0 (-1))

/-- Function `removeEmptyPort` of `net/http`: `strings.TrimSuffix(host, ":")` if the host
has a port, the host itself otherwise. -/
def removeEmptyPort (host : String) : String :=
  if hasPort host then
    if host.data.getLast? = some ':' then String.mk host.data.dropLast else host
  else host

/-- Function `http.Get` of `net/http` with the default client: `NewRequest` parses the
URL and strips an empty port from its host, the default transport refuses a scheme other
than `http` and `https` and then an empty host, and only then is the network asked. -/
def httpGet (L : Lib) (url : String) : Except Err String :=
  match L.urlParse url with
  | .error err => .error err
  | .ok parsed =>
    let u := { parsed with Host := removeEmptyPort parsed.Host }
    if u.Scheme = "http" ∨ u.Scheme = "https" then
      if u.Host = "" then .error (L.noHost u) else L.roundTrip u
    else .error (L.unsupportedScheme u)

/-! ## The program -/

/-- Function `NewLinkChecker`. -/
def NewLinkChecker (baseURL : URL) : LinkChecker :=
  { baseURL := baseURL, deadLink := false }

/-- Method `LinkChecker.parseLink`. -/
def parseLink (L : Lib) (lc : LinkChecker) (href : String) : Except Err URL :=
  match L.urlParse href with
  | .error err => .error err
  | .ok link =>
    if link.Scheme = "" then .ok (ResolveReference L lc.baseURL link) else .ok link

/-- The four `req.Header.Set` calls of `checkLink`. -/
def setProbeHeaders (L : Lib) (lc : LinkChecker) (req : Request) : Request :=
  (((req.setHeader "User-Agent"
      "Mozilla/5.0 (Windows NT 10.0; Win64; x64) AppleWebKit/537.36 (KHTML, like Gecko) Chrome/114.0.0.0 Safari/537.36").setHeader
      "Accept" "text/html,application/xhtml+xml,application/xml;q=0.9,image/webp,*/*;q=0.8").setHeader
      "Accept-Language" "en-US,en;q=0.5").setHeader
      "Referer" (L.urlString lc.baseURL)

/-- The line `fmt.Printf("Dead link found: %s (%d)\n", link, resp.StatusCode)`. -/
def deadLinkLine (L : Lib) (link : URL) (status : Int) : String :=
  "Dead link found: " ++ L.urlString link ++ " (" ++ toString status ++ ")\n"

/-- Method `LinkChecker.checkLink`: the returned error (`none` for `nil`) and the process
afterwards. -/
def checkLink (L : Lib) (p : Proc) (link : URL) : Option Err × Proc :=
  let p := p.log (.filter (L.hostname link))
  match L.effectiveTLDPlusOne (L.hostname link) with
  | .error _ => (none, p)
  | .ok _ =>
    match L.newRequest "GET" (L.urlString link) with
    | .error err => (some err, p)
    | .ok req =>
      let req := setProbeHeaders L p.lc req
      let res := L.clientDo p.trace req
      let p := p.log (.probe req res)
      match res with
      | .error err => (some err, p)
      | .ok resp =>
        if resp.StatusCode ≥ 400 then
          (none, { (p.print (deadLinkLine L link resp.StatusCode)) with
                     lc := { p.lc with deadLink := true } })
        else (none, p)

/-- The line `fmt.Println("Error parsing link:", err)`. -/
def parseErrorLine (err : Err) : String :=
  "Error parsing link: " ++ err ++ "\n"

/-- The line `fmt.Printf("Error checking link %s: %s\n", link, err)`. -/
def checkErrorLine (L : Lib) (link : URL) (err : Err) : String :=
  "Error checking link " ++ L.urlString link ++ ": " ++ err ++ "\n"

/-- The body of `if attr.Key == "href"` in `CheckLinks`, for the attribute value `href`. -/
def checkHref (L : Lib) (p : Proc) (href : String) : Proc :=
  let p := p.log (.resolve href)
  match parseLink L p.lc href with
  | .error err => p.print (parseErrorLine err)
  | .ok link =>
    match checkLink L p link with
    | (some err, p) => p.print (checkErrorLine L link err)
    | (none, p) => p

/-- The body of the loop `for _, attr := range node.Attr` in `CheckLinks`. -/
def checkAttr (L : Lib) (p : Proc) (attr : Attribute) : Proc :=
  if attr.Key = "href" then checkHref L p attr.Val else p

/-- The loop `for _, attr := range node.Attr` in `CheckLinks`. -/
def checkAttrs (L : Lib) (p : Proc) : List Attribute → Proc
  | [] => p
  | attr :: rest => checkAttrs L (checkAttr L p attr) rest

mutual
/-- Method `LinkChecker.CheckLinks`. -/
def CheckLinks (L : Lib) (p : Proc) : Node → Proc
  | .mk typ data attr children =>
    let p := if typ = NodeType.ElementNode ∧ data = "a" then checkAttrs L p attr else p
    CheckLinksChildren L p children
/-- The loop over `node.FirstChild`, `child.NextSibling`, ... in `CheckLinks`. -/
def CheckLinksChildren (L : Lib) (p : Proc) : List Node → Proc
  | [] => p
  | child :: rest => CheckLinksChildren L (CheckLinks L p child) rest
end

/-- Function `fetchHTML`. -/
def fetchHTML (L : Lib) (url : String) : Except Err Node :=
  match httpGet L url with
  | .error err => .error err
  | .ok body =>
    match L.htmlParse body with
    | .error err => .error err
    | .ok doc => .ok doc

/-- What one run of `main` leaves behind.  `checker` is the session if `NewLinkChecker`
was reached, in its final state; `walked` is the session and document handed to
`CheckLinks` if that call was reached. -/
structure Outcome where
  stdout : List String
  stderr : List String
  exitCode : Nat
  checker : Option LinkChecker
  walked : Option (LinkChecker × Node)
  trace : List Event

/-- Function `main`, run on the content of standard input. -/
def main (L : Lib) (stdin : String) : Outcome :=
  let out := ["Enter the URL of the website to check for dead links: "]
  let targetURL := L.trimSpace (L.readString stdin)
  match L.urlParse targetURL with
  | .error err =>
    { stdout := out, stderr := ["Error parsing base URL: " ++ err ++ "\n"], exitCode := 1,
      checker := none, walked := none, trace := [] }
  | .ok baseURL =>
    let checker := NewLinkChecker baseURL
    let out := out ++ ["Checking for dead links. This may take some time...\n"]
    match fetchHTML L targetURL with
    | .error err =>
      { stdout := out, stderr := ["Error fetching HTML: " ++ err ++ "\n"], exitCode := 1,
        checker := some checker, walked := none, trace := [] }
    | .ok doc =>
      let p := CheckLinks L { lc := checker, stdout := out, trace := [] } doc
      { stdout := if p.lc.deadLink = false then p.stdout ++ ["No dead links found.\n"]
                  else p.stdout,
        stderr := [], exitCode := 0, checker := some p.lc, walked := some (checker, doc),
        trace := p.trace }

/-! ## Reference definitions, in the words of the specification -/

/-- The values of the attributes named `href`, in attribute order. -/
def hrefValues (attrs : List Attribute) : List String :=
  (attrs.filter (fun attr => attr.Key = "href")).map (fun attr => attr.Val)

mutual
/-- The link candidates of a document in document order: pre-order, a node's own `href`
values (if it is an element with tag `a`) before those of its children, children from
left to right. -/
def anchorHrefs : Node → List String
  | .mk typ data attr children =>
    (if typ = NodeType.ElementNode ∧ data = "a" then hrefValues attr else []) ++
      anchorHrefsOfList children
/-- The link candidates of a list of sibling nodes, left to right. -/
def anchorHrefsOfList : List Node → List String
  | [] => []
  | child :: rest => anchorHrefs child ++ anchorHrefsOfList rest
end

/-- The calls one link candidate leads to, in order: Resolver, then (if it succeeded)
Domain Filter, then (if the host is checkable and the request could be built) Prober. -/
def linkSteps (L : Lib) (base : URL) (href : String) : List Call :=
  .resolve href ::
    match parseLink L (NewLinkChecker base) href with
    | .error _ => []
    | .ok link =>
      .filter (L.hostname link) ::
        match L.effectiveTLDPlusOne (L.hostname link) with
        | .error _ => []
        | .ok _ =>
          match L.newRequest "GET" (L.urlString link) with
          | .error _ => []
          | .ok req => [.probe (setProbeHeaders L (NewLinkChecker base) req)]

/-- What the specification lets one link candidate do ("best effort single pass"), given
the base URL and the log so far: the calls it makes with their answers, the lines it
writes, and whether it is a dead-link detection.
* Resolver failure: the one line "Error parsing link: <error>", no further call.
* Host not checkable: silently skipped.
* Request not built, or transport failure of the probe: the one line
  "Error checking link <url>: <error>".
* Probe answered with a status of 400 or more: the one line
  "Dead link found: <url> (<status>)", and a detection.
* Probe answered with a status below 400: nothing. -/
def linkOutcome (L : Lib) (base : URL) (log : List Event) (href : String) :
    List Event × List String × Bool :=
  match parseLink L (NewLinkChecker base) href with
  | .error err => ([.resolve href], ["Error parsing link: " ++ err ++ "\n"], false)
  | .ok link =>
    match L.effectiveTLDPlusOne (L.hostname link) with
    | .error _ => ([.resolve href, .filter (L.hostname link)], [], false)
    | .ok _ =>
      match L.newRequest "GET" (L.urlString link) with
      | .error err =>
        ([.resolve href, .filter (L.hostname link)],
         ["Error checking link " ++ L.urlString link ++ ": " ++ err ++ "\n"], false)
      | .ok built =>
        let req := setProbeHeaders L (NewLinkChecker base) built
        match L.clientDo (log ++ [.resolve href, .filter (L.hostname link)]) req with
        | .error err =>
          ([.resolve href, .filter (L.hostname link), .probe req (.error err)],
           ["Error checking link " ++ L.urlString link ++ ": " ++ err ++ "\n"], false)
        | .ok resp =>
          ([.resolve href, .filter (L.hostname link), .probe req (.ok resp)],
           if resp.StatusCode ≥ 400 then
             ["Dead link found: " ++ L.urlString link ++ " (" ++ toString resp.StatusCode ++
               ")\n"]
           else [],
           decide (resp.StatusCode ≥ 400))

/-- One link candidate attempted in the process `p`, whatever happened to the candidates
before it: the log and the output grow by what `linkOutcome` says, the flag is set if it
was set or this candidate is a detection, the base URL stays. -/
def attempt (L : Lib) (p : Proc) (href : String) : Proc :=
  { lc := { baseURL := p.lc.baseURL,
            deadLink := p.lc.deadLink || (linkOutcome L p.lc.baseURL p.trace href).2.2 },
    stdout := p.stdout ++ (linkOutcome L p.lc.baseURL p.trace href).2.1,
    trace := p.trace ++ (linkOutcome L p.lc.baseURL p.trace href).1 }

/-- A dead-link detection: a probe answered with a status of 400 or more. -/
def Event.isDead : Event → Bool
  | .probe _ (.ok resp) => decide (resp.StatusCode ≥ 400)
  | _ => false

/-- A probe that was answered with a response, of whatever status. -/
def Event.answered : Event → Bool
  | .probe _ (.ok _) => true
  | _ => false

/-- A chunk of output that starts with "Dead link found: ". -/
def isDeadLine (line : String) : Bool :=
  "Dead link found: ".data.isPrefixOf line.data

/-- A call of the Prober. -/
def Call.isProbe : Call → Bool
  | .probe _ => true
  | _ => false

/-- The href a call resolves, if it is a Resolver call. -/
def Call.href? : Call → Option String
  | .resolve href => some href
  | _ => none

/-- What a stretch of the walk from `p` to `q` did, when the stretch handled the link
candidates `hrefs`: the base URL is kept; the log grew by events whose calls are exactly
the steps of these candidates, in order; the output grew by lines, none of them starting
with `N`; the flag is set exactly if it was set before or one of the new events is a
dead-link detection, which is the case exactly if one of the new lines is a "Dead link
found" line; every probe logged carries an answer of the client. -/
structure Progress (L : Lib) (p q : Proc) (hrefs : List String) : Prop where
  base : q.lc.baseURL = p.lc.baseURL
  steps : ∃ evs lines,
    q.trace = p.trace ++ evs ∧
    q.stdout = p.stdout ++ lines ∧
    q.lc.deadLink = (p.lc.deadLink || evs.any Event.isDead) ∧
    evs.map Event.call = hrefs.flatMap (linkSteps L p.lc.baseURL) ∧
    lines.any isDeadLine = evs.any Event.isDead ∧
    (∀ l ∈ lines, l.data.head? ≠ some 'N') ∧
    (∀ req res, Event.probe req res ∈ evs → ∃ t, res = L.clientDo t req)

/-! ## A small world for the examples

`demo` fixes a site, `https://example.com/`, and the answers the library gives on the
few inputs the examples below touch; each answer is the one the Go library gives on that
input.  The properties of the program are proved for every `Lib`; the examples
instantiate them in this world. -/

/-- The zero `url.URL`. -/
def URL.zero : URL :=
  { Scheme := "", Opaque := "", User := none, Host := "", Path := "", RawPath := "",
    OmitHost := false, ForceQuery := false, RawQuery := "", Fragment := "",
    RawFragment := "" }

/-- Function `url.Parse` on the strings of the examples. -/
def demoParse (s : String) : Except Err URL :=
  if s = "https://example.com/" then
    .ok { URL.zero with Scheme := "https", Host := "example.com", Path := "/" }
  else if s = "http://example.invalid/missing" then
    .ok { URL.zero with Scheme := "http", Host := "example.invalid", Path := "/missing" }
  else if s = "mailto:a@b.com" then
    .ok { URL.zero with Scheme := "mailto", Opaque := "a@b.com" }
  else if s = "/about" then
    .ok { URL.zero with Path := "/about" }
  else if s = "//other.example/path" then
    .ok { URL.zero with Host := "other.example", Path := "/path" }
  else if s = "https://example.com/empty" then
    .ok { URL.zero with Scheme := "https", Host := "example.com", Path := "/empty" }
  else if s = "example.com" then
    .ok { URL.zero with Path := "example.com" }
  else if s = "%zz" then
    .error "parse \"%zz\": invalid URL escape \"%zz\""
  else
    .error ("parse \"" ++ s ++ "\": not among the examples")

/-- Method `(*url.URL).String` for a URL without user information, query or fragment whose
host and path need no escaping. -/
def demoString (u : URL) : String :=
  (if u.Scheme = "" then "" else u.Scheme ++ ":") ++
    (if u.Opaque = "" then (if u.Host = "" then "" else "//" ++ u.Host) ++ u.Path
     else u.Opaque)

/-- The body served at `https://example.com/`. -/
def demoBody : String :=
  "<p href=\"ignored\">hello</p><a href=\"/about\">about</a>" ++
  "<a class=\"x\" href=\"http://example.invalid/missing\"></a><a href=\"mailto:a@b.com\"></a>"

/-- The tree `html.Parse` builds from `demoBody`: a document whose body holds a
paragraph and three anchors; the second anchor has a `class` attribute before its
`href`. -/
def demoDoc : Node :=
  .mk .DocumentNode "" []
    [.mk .ElementNode "html" []
      [.mk .ElementNode "head" [] [],
       .mk .ElementNode "body" []
        [.mk .ElementNode "p" [⟨"", "href", "ignored"⟩] [.mk .TextNode "hello" [] []],
         .mk .ElementNode "a" [⟨"", "href", "/about"⟩] [.mk .TextNode "about" [] []],
         .mk .ElementNode "a"
           [⟨"", "class", "x"⟩, ⟨"", "href", "http://example.invalid/missing"⟩] [],
         .mk .ElementNode "a" [⟨"", "href", "mailto:a@b.com"⟩] []]]]

/-- The tree `html.Parse` builds from the empty body. -/
def emptyDoc : Node :=
  .mk .DocumentNode "" []
    [.mk .ElementNode "html" [] [.mk .ElementNode "head" [] [], .mk .ElementNode "body" [] []]]

/-- The small world: `example.com` answers 200 on every path, `example.invalid` answers
404, every other host refuses the connection. -/
def demo : Lib where
  urlParse := demoParse
  urlString := demoString
  hostname := fun u => u.Host
  escapedPath := fun u => u.Path
  resolvePath := fun base ref => if ref = "" then base else ref
  setPath := fun p => .ok (p, "")
  effectiveTLDPlusOne := fun host =>
    if host = "example.com" ∨ host = "example.invalid" ∨ host = "other.example" then
      .ok host
    else .error ("publicsuffix: cannot derive eTLD+1 for domain \"" ++ host ++ "\"")
  newRequest := fun method url => .ok { Method := method, URL := url, Header := [] }
  clientDo := fun _ req =>
    if req.URL = "https://example.com/about" then .ok { StatusCode := 200 }
    else if req.URL = "http://example.invalid/missing" then .ok { StatusCode := 404 }
    else .error ("Get \"" ++ req.URL ++ "\": dial tcp: connection refused")
  roundTrip := fun u =>
    if u.Host = "example.com" then .ok (if u.Path = "/" then demoBody else "") else
      .error ("Get \"" ++ demoString u ++ "\": dial tcp: connection refused")
  unsupportedScheme := fun u =>
    "Get \"" ++ demoString u ++ "\": unsupported protocol scheme \"" ++ u.Scheme ++ "\""
  noHost := fun u => "Get \"" ++ demoString u ++ "\": http: no Host in request URL"
  htmlParse := fun body =>
    if body = demoBody then .ok demoDoc
    else if body = "" then .ok emptyDoc
    else .error "not among the examples"
  readString := fun stdin => String.mk (stdin.data.takeWhile (fun c => c ≠ '\n') ++
    (if '\n' ∈ stdin.data then ['\n'] else []))
  trimSpace := fun s =>
    String.mk ((s.data.dropWhile Char.isWhitespace).reverse.dropWhile Char.isWhitespace).reverse

/-- The small world with the network down for probes: every request of the client fails at
transport level. -/
def demoOffline : Lib :=
  { demo with
    clientDo := fun _ req => .error ("Get \"" ++ req.URL ++ "\": dial tcp: connection refused") }

/-- The session of the examples, before the walk. -/
def demoProc : Proc :=
  { lc := NewLinkChecker { URL.zero with Scheme := "https", Host := "example.com", Path := "/" },
    stdout := [], trace := [] }

/-! ## Facts about `checkLink` -/

/-- Outcome of `checkLink` when the public-suffix lookup fails. -/
theorem checkLink_filtered (L : Lib) (p : Proc) (link : URL) (e : Err)
    (hdom : L.effectiveTLDPlusOne (L.hostname link) = .error e) :
    checkLink L p link = (none, p.log (.filter (L.hostname link))) := by
  unfold checkLink
  simp only [hdom]

/-- Outcome of `checkLink` when `http.NewRequest` fails. -/
theorem checkLink_no_request (L : Lib) (p : Proc) (link : URL) (dom : String) (e : Err)
    (hdom : L.effectiveTLDPlusOne (L.hostname link) = .ok dom)
    (hreq : L.newRequest "GET" (L.urlString link) = .error e) :
    checkLink L p link = (some e, p.log (.filter (L.hostname link))) := by
  unfold checkLink
  simp only [hdom, hreq]

/-- Outcome of `checkLink` when the client returns an error. -/
theorem checkLink_transport (L : Lib) (p : Proc) (link : URL) (dom : String)
    (req : Request) (e : Err)
    (hdom : L.effectiveTLDPlusOne (L.hostname link) = .ok dom)
    (hreq : L.newRequest "GET" (L.urlString link) = .ok req)
    (hdo : L.clientDo (p.log (.filter (L.hostname link))).trace
      (setProbeHeaders L p.lc req) = .error e) :
    checkLink L p link =
      (some e, (p.log (.filter (L.hostname link))).log
        (.probe (setProbeHeaders L p.lc req) (.error e))) := by
  have hlc : (p.log (.filter (L.hostname link))).lc = p.lc := rfl
  unfold checkLink
  simp only [hdom, hreq, hlc, hdo]

/-- Outcome of `checkLink` when the client returns a response. -/
theorem checkLink_response (L : Lib) (p : Proc) (link : URL) (dom : String)
    (req : Request) (resp : Response)
    (hdom : L.effectiveTLDPlusOne (L.hostname link) = .ok dom)
    (hreq : L.newRequest "GET" (L.urlString link) = .ok req)
    (hdo : L.clientDo (p.log (.filter (L.hostname link))).trace
      (setProbeHeaders L p.lc req) = .ok resp) :
    checkLink L p link =
      if resp.StatusCode ≥ 400 then
        (none,
          { lc := { p.lc with deadLink := true },
            stdout := p.stdout ++ [deadLinkLine L link resp.StatusCode],
            trace := p.trace ++ [.filter (L.hostname link)] ++
              [.probe (setProbeHeaders L p.lc req) (.ok resp)] })
      else
        (none, (p.log (.filter (L.hostname link))).log
          (.probe (setProbeHeaders L p.lc req) (.ok resp))) := by
  have hlc : (p.log (.filter (L.hostname link))).lc = p.lc := rfl
  unfold checkLink
  simp only [hdom, hreq, hlc, hdo]
  rfl

/-! ## The walk as a sequence of link candidates -/

/-- The empty stretch handles no candidate. -/
theorem Progress.refl (L : Lib) (p : Proc) : Progress L p p [] :=
  ⟨rfl, [], [], by simp, by simp, by simp, by simp, by simp, by simp, by simp⟩

/-- Two stretches in a row handle the candidates of the first, then those of the
second. -/
theorem Progress.trans {L : Lib} {p q r : Proc} {h₁ h₂ : List String}
    (hpq : Progress L p q h₁) (hqr : Progress L q r h₂) : Progress L p r (h₁ ++ h₂) := by
  obtain ⟨hb₁, e₁, l₁, ht₁, ho₁, hd₁, hc₁, hl₁, hn₁, hp₁⟩ := hpq
  obtain ⟨hb₂, e₂, l₂, ht₂, ho₂, hd₂, hc₂, hl₂, hn₂, hp₂⟩ := hqr
  refine ⟨hb₂.trans hb₁, e₁ ++ e₂, l₁ ++ l₂, ?_, ?_, ?_, ?_, ?_, ?_, ?_⟩
  · rw [ht₂, ht₁, List.append_assoc]
  · rw [ho₂, ho₁, List.append_assoc]
  · rw [hd₂, hd₁, List.any_append, Bool.or_assoc]
  · rw [List.map_append, List.flatMap_append, hc₁, hc₂, hb₁]
  · rw [List.any_append, List.any_append, hl₁, hl₂]
  · intro l hl
    rcases List.mem_append.mp hl with h | h
    · exact hn₁ l h
    · exact hn₂ l h
  · intro req res hmem
    rcases List.mem_append.mp hmem with h | h
    · exact hp₁ req res h
    · exact hp₂ req res h

/-- One link candidate: what `checkHref` does. -/
theorem checkHref_progress (L : Lib) (p : Proc) (href : String) :
    Progress L p (checkHref L p href) [href] := by
  have hlc : (p.log (.resolve href)).lc = p.lc := rfl
  have hpl : parseLink L (NewLinkChecker p.lc.baseURL) href = parseLink L p.lc href := rfl
  have hsp : ∀ req, setProbeHeaders L (NewLinkChecker p.lc.baseURL) req =
      setProbeHeaders L p.lc req := fun _ => rfl
  unfold checkHref
  simp only [hlc]
  cases hparse : parseLink L p.lc href with
  | error e =>
    refine ⟨rfl, [.resolve href], [parseErrorLine e], rfl, rfl, ?_, ?_, ?_, ?_, ?_⟩
    · simp [Event.isDead, Proc.log, Proc.print]
    · simp [linkSteps, hpl, hparse, Event.call]
    · simp [Event.isDead, isDeadLine, parseErrorLine, String.data_append, List.isPrefixOf]
    · simp [parseErrorLine, String.data_append]
    · simp
  | ok link =>
    simp only []
    cases hdom : L.effectiveTLDPlusOne (L.hostname link) with
    | error e =>
      rw [checkLink_filtered L _ link e hdom]
      refine ⟨rfl, [.resolve href, .filter (L.hostname link)], [], ?_, ?_, ?_, ?_, ?_, ?_, ?_⟩
      · simp [Proc.log]
      · simp [Proc.log]
      · simp [Event.isDead, Proc.log]
      · simp [linkSteps, hpl, hparse, hdom, Event.call]
      · simp [Event.isDead]
      · simp
      · simp
    | ok dom =>
      cases hreq : L.newRequest "GET" (L.urlString link) with
      | error e =>
        rw [checkLink_no_request L _ link dom e hdom hreq]
        refine ⟨rfl, [.resolve href, .filter (L.hostname link)], [checkErrorLine L link e],
          ?_, ?_, ?_, ?_, ?_, ?_, ?_⟩
        · simp [Proc.log, Proc.print]
        · simp [Proc.log, Proc.print]
        · simp [Event.isDead, Proc.log, Proc.print]
        · simp [linkSteps, hpl, hparse, hdom, hreq, Event.call]
        · simp [Event.isDead, isDeadLine, checkErrorLine, String.data_append,
            List.isPrefixOf]
        · simp [checkErrorLine, String.data_append]
        · simp
      | ok req =>
        cases hdo : L.clientDo ((p.log (.resolve href)).log (.filter (L.hostname link))).trace
            (setProbeHeaders L p.lc req) with
        | error e =>
          rw [checkLink_transport L _ link dom req e hdom hreq hdo]
          refine ⟨rfl, [.resolve href, .filter (L.hostname link),
            .probe (setProbeHeaders L p.lc req) (.error e)], [checkErrorLine L link e],
            ?_, ?_, ?_, ?_, ?_, ?_, ?_⟩
          · simp [Proc.log, Proc.print]
          · simp [Proc.log, Proc.print]
          · simp [Event.isDead, Proc.log, Proc.print]
          · simp [linkSteps, hpl, hparse, hdom, hreq, hsp, Event.call]
          · simp [Event.isDead, isDeadLine, checkErrorLine, String.data_append,
              List.isPrefixOf]
          · simp [checkErrorLine, String.data_append]
          · intro r res hmem
            simp at hmem
            exact ⟨_, by rw [hmem.2, ← hdo, hmem.1]⟩
        | ok resp =>
          rw [checkLink_response L _ link dom req resp hdom hreq hdo]
          by_cases hst : resp.StatusCode ≥ 400
          · rw [if_pos hst]
            refine ⟨rfl, [.resolve href, .filter (L.hostname link),
              .probe (setProbeHeaders L p.lc req) (.ok resp)],
              [deadLinkLine L link resp.StatusCode], ?_, ?_, ?_, ?_, ?_, ?_, ?_⟩
            · simp [Proc.log]
            · simp [Proc.log]
            · simp [Event.isDead, Proc.log, hst]
            · simp [linkSteps, hpl, hparse, hdom, hreq, hsp, Event.call]
            · simp [Event.isDead, isDeadLine, deadLinkLine, String.data_append,
                List.isPrefixOf, hst]
            · simp [deadLinkLine, String.data_append]
            · intro r res hmem
              simp at hmem
              exact ⟨_, by rw [hmem.2, ← hdo, hmem.1]⟩
          · rw [if_neg hst]
            refine ⟨rfl, [.resolve href, .filter (L.hostname link),
              .probe (setProbeHeaders L p.lc req) (.ok resp)], [], ?_, ?_, ?_, ?_, ?_, ?_, ?_⟩
            · simp [Proc.log]
            · simp [Proc.log]
            · simp [Event.isDead, Proc.log, hst]
            · simp [linkSteps, hpl, hparse, hdom, hreq, hsp, Event.call]
            · simp [Event.isDead, hst]
            · simp
            · intro r res hmem
              simp at hmem
              exact ⟨_, by rw [hmem.2, ← hdo, hmem.1]⟩

/-- The `href` values of an attribute list, attribute by attribute. -/
theorem hrefValues_cons (attr : Attribute) (rest : List Attribute) :
    hrefValues (attr :: rest) =
      (if attr.Key = "href" then [attr.Val] else []) ++ hrefValues rest := by
  unfold hrefValues
  by_cases h : attr.Key = "href" <;> simp [List.filter_cons, h]

/-- One attribute: what the loop body does. -/
theorem checkAttr_progress (L : Lib) (p : Proc) (attr : Attribute) :
    Progress L p (checkAttr L p attr) (if attr.Key = "href" then [attr.Val] else []) := by
  unfold checkAttr
  by_cases h : attr.Key = "href"
  · rw [if_pos h, if_pos h]
    exact checkHref_progress L p attr.Val
  · rw [if_neg h, if_neg h]
    exact Progress.refl L p

/-- The attribute loop handles the `href` values of the node, in attribute order. -/
theorem checkAttrs_progress (L : Lib) (attrs : List Attribute) :
    ∀ p : Proc, Progress L p (checkAttrs L p attrs) (hrefValues attrs) := by
  induction attrs with
  | nil => intro p; exact Progress.refl L p
  | cons attr rest ih =>
    intro p
    rw [hrefValues_cons]
    exact (checkAttr_progress L p attr).trans (ih (checkAttr L p attr))

mutual
/-- The walk of a tree handles its link candidates, in document order. -/
theorem CheckLinks_progress (L : Lib) (p : Proc) :
    ∀ node : Node, Progress L p (CheckLinks L p node) (anchorHrefs node)
  | .mk typ data attr children => by
    rw [CheckLinks, anchorHrefs]
    by_cases h : typ = NodeType.ElementNode ∧ data = "a"
    · simp only [if_pos h]
      exact (checkAttrs_progress L attr p).trans (CheckLinksChildren_progress L _ children)
    · simp only [if_neg h]
      exact (Progress.refl L p).trans (CheckLinksChildren_progress L _ children)
/-- The walk of a list of siblings handles their link candidates, left to right. -/
theorem CheckLinksChildren_progress (L : Lib) (p : Proc) :
    ∀ nodes : List Node, Progress L p (CheckLinksChildren L p nodes) (anchorHrefsOfList nodes)
  | [] => by
    rw [CheckLinksChildren, anchorHrefsOfList]
    exact Progress.refl L p
  | child :: rest => by
    rw [CheckLinksChildren, anchorHrefsOfList]
    exact (CheckLinks_progress L p child).trans (CheckLinksChildren_progress L _ rest)
end

/-- The loop body on an `href` attribute whose value resolves to `link`: `checkLink` is
called on the process that has logged the Resolver call, and a returned error is
printed. -/
theorem checkAttr_resolved (L : Lib) (p : Proc) (attr : Attribute) (link : URL)
    (hkey : attr.Key = "href") (hparse : parseLink L p.lc attr.Val = .ok link) :
    checkAttr L p attr =
      match checkLink L (p.log (.resolve attr.Val)) link with
      | (some err, q) => q.print (checkErrorLine L link err)
      | (none, q) => q := by
  have hlc : (p.log (.resolve attr.Val)).lc = p.lc := rfl
  unfold checkAttr checkHref
  simp only [if_pos hkey, hlc, hparse]

/-! ## The claims about `checkLink` and `parseLink` -/

/-- C1: when the host passes the public-suffix filter, the request is built, and the
client answers with a status of 400 or more, `checkLink` returns no error, sets
`deadLink`, and writes exactly one line, "Dead link found: <url> (<status>)". -/
theorem checkLink_dead_link (L : Lib) (p : Proc) (link : URL) (dom : String)
    (req : Request) (resp : Response)
    (hdom : L.effectiveTLDPlusOne (L.hostname link) = .ok dom)
    (hreq : L.newRequest "GET" (L.urlString link) = .ok req)
    (hdo : L.clientDo (p.log (.filter (L.hostname link))).trace
      (setProbeHeaders L p.lc req) = .ok resp)
    (hstatus : resp.StatusCode ≥ 400) :
    (checkLink L p link).1 = none ∧
    (checkLink L p link).2.lc.deadLink = true ∧
    (checkLink L p link).2.stdout =
      p.stdout ++ ["Dead link found: " ++ L.urlString link ++ " (" ++
        toString resp.StatusCode ++ ")\n"] := by
  rw [checkLink_response L p link dom req resp hdom hreq hdo, if_pos hstatus]
  exact ⟨rfl, rfl, rfl⟩


/-- Example for C1: in the small world the link `http://example.invalid/missing` is
answered with 404. -/
theorem checkLink_dead_link_witness :
    (checkLink demo demoProc
      { URL.zero with Scheme := "http", Host := "example.invalid", Path := "/missing" }).1
        = none ∧
    (checkLink demo demoProc
      { URL.zero with Scheme := "http", Host := "example.invalid", Path := "/missing" }).2.lc.deadLink
        = true ∧
    (checkLink demo demoProc
      { URL.zero with Scheme := "http", Host := "example.invalid", Path := "/missing" }).2.stdout
        = ["Dead link found: http://example.invalid/missing (404)\n"] :=
  checkLink_dead_link demo demoProc
    { URL.zero with Scheme := "http", Host := "example.invalid", Path := "/missing" }
    "example.invalid" { Method := "GET", URL := "http://example.invalid/missing", Header := [] }
    { StatusCode := 404 } rfl rfl rfl (by decide)

/-- C2: when the client answers the probe of `link` with a status below 400, `checkLink`
returns no error, writes nothing and leaves the session (the `deadLink` flag included)
as it was; and the loop body of `CheckLinks` that made the call writes nothing either. -/
theorem checkLink_alive_silent (L : Lib) (p : Proc) (link : URL) (dom : String)
    (req : Request) (resp : Response)
    (hdom : L.effectiveTLDPlusOne (L.hostname link) = .ok dom)
    (hreq : L.newRequest "GET" (L.urlString link) = .ok req)
    (hdo : L.clientDo (p.log (.filter (L.hostname link))).trace
      (setProbeHeaders L p.lc req) = .ok resp)
    (hstatus : resp.StatusCode < 400) :
    (checkLink L p link).1 = none ∧
    (checkLink L p link).2.stdout = p.stdout ∧
    (checkLink L p link).2.lc = p.lc ∧
    ∀ (p₀ : Proc) (attr : Attribute), attr.Key = "href" →
      parseLink L p₀.lc attr.Val = .ok link → p₀.log (.resolve attr.Val) = p →
      (checkAttr L p₀ attr).stdout = p₀.stdout ∧ (checkAttr L p₀ attr).lc = p₀.lc := by
  have hnot : ¬ resp.StatusCode ≥ 400 := not_le.mpr hstatus
  have h := checkLink_response L p link dom req resp hdom hreq hdo
  rw [if_neg hnot] at h
  refine ⟨by rw [h], by rw [h]; rfl, by rw [h]; rfl, ?_⟩
  intro p₀ attr hkey hparse hp
  rw [checkAttr_resolved L p₀ attr link hkey hparse, hp, h]
  subst hp
  exact ⟨rfl, rfl⟩

/-- Example for C2: in the small world the anchor `/about` of the page is answered with
200; the flag, set before the call, stays set. -/
theorem checkLink_alive_silent_witness :
    (checkAttr demo
      { lc := { demoProc.lc with deadLink := true }, stdout := ["earlier\n"], trace := [] }
      ⟨"", "href", "/about"⟩).stdout = ["earlier\n"] ∧
    (checkAttr demo
      { lc := { demoProc.lc with deadLink := true }, stdout := ["earlier\n"], trace := [] }
      ⟨"", "href", "/about"⟩).lc.deadLink = true :=
  have h := (checkLink_alive_silent demo
    { lc := { demoProc.lc with deadLink := true }, stdout := ["earlier\n"],
      trace := [.resolve "/about"] }
    { URL.zero with Scheme := "https", Host := "example.com", Path := "/about" }
    "example.com" { Method := "GET", URL := "https://example.com/about", Header := [] }
    { StatusCode := 200 } rfl rfl rfl (by decide)).2.2.2
    { lc := { demoProc.lc with deadLink := true }, stdout := ["earlier\n"], trace := [] }
    ⟨"", "href", "/about"⟩ rfl rfl rfl
  ⟨h.1, congrArg LinkChecker.deadLink h.2⟩

/-- A walk in which no probe was answered with a response leaves the flag as it was. -/
theorem Progress.deadLink_of_no_response {L : Lib} {p q : Proc} {hrefs : List String}
    (h : Progress L p q hrefs) (herr : q.trace.any Event.answered = false) :
    q.lc.deadLink = p.lc.deadLink := by
  obtain ⟨_, evs, lines, ht, _, hd, _, _, _, _⟩ := h
  have hnone : evs.any Event.isDead = false := by
    rw [List.any_eq_false]
    intro ev hev
    have hans := List.any_eq_false.mp herr ev (by rw [ht]; exact List.mem_append_right _ hev)
    cases ev with
    | resolve href => simp [Event.isDead]
    | filter host => simp [Event.isDead]
    | probe req res =>
      cases res with
      | error e => simp [Event.isDead]
      | ok resp => simp [Event.answered] at hans
  rw [hd, hnone, Bool.or_false]

/-- C3: when the client answers the probe of `link` with an error instead of a response,
`checkLink` returns that error, writes nothing and leaves the session (the `deadLink`
flag included) as it was; the loop body of `CheckLinks` that made the call writes exactly
one line, "Error checking link <url>: <error>"; and a run of `main` in which no probe was
answered with a response ends with `deadLink` still false. -/
theorem checkLink_transport_error (L : Lib) (p : Proc) (link : URL) (dom : String)
    (req : Request) (err : Err)
    (hdom : L.effectiveTLDPlusOne (L.hostname link) = .ok dom)
    (hreq : L.newRequest "GET" (L.urlString link) = .ok req)
    (hdo : L.clientDo (p.log (.filter (L.hostname link))).trace
      (setProbeHeaders L p.lc req) = .error err) :
    (checkLink L p link).1 = some err ∧
    (checkLink L p link).2.stdout = p.stdout ∧
    (checkLink L p link).2.lc = p.lc ∧
    (∀ (p₀ : Proc) (attr : Attribute), attr.Key = "href" →
      parseLink L p₀.lc attr.Val = .ok link → p₀.log (.resolve attr.Val) = p →
      (checkAttr L p₀ attr).stdout =
        p₀.stdout ++ ["Error checking link " ++ L.urlString link ++ ": " ++ err ++ "\n"] ∧
      (checkAttr L p₀ attr).lc = p₀.lc) ∧
    (∀ (stdin : String) (lc : LinkChecker),
      (main L stdin).trace.any Event.answered = false →
      (main L stdin).checker = some lc → lc.deadLink = false) := by
  have h := checkLink_transport L p link dom req err hdom hreq hdo
  refine ⟨by rw [h], by rw [h]; rfl, by rw [h]; rfl, ?_, ?_⟩
  · intro p₀ attr hkey hparse hp
    rw [checkAttr_resolved L p₀ attr link hkey hparse, hp, h]
    subst hp
    exact ⟨rfl, rfl⟩
  · intro stdin lc hall hchecker
    unfold main at hall hchecker
    cases hparse : L.urlParse (L.trimSpace (L.readString stdin)) with
    | error e => simp [hparse] at hchecker
    | ok baseURL =>
      simp only [hparse] at hall hchecker
      cases hfetch : fetchHTML L (L.trimSpace (L.readString stdin)) with
      | error e =>
        simp only [hfetch, Option.some.injEq] at hchecker
        rw [← hchecker]
        rfl
      | ok doc =>
        simp only [hfetch, Option.some.injEq] at hall hchecker
        rw [← hchecker, (CheckLinks_progress L _ doc).deadLink_of_no_response hall]
        rfl

/-- Example for C3: with the network down, the anchor `//other.example/path` yields one
error line, and the run over the whole page, in which no probe is answered, ends with the
flag false. -/
theorem checkLink_transport_error_witness :
    ((checkAttr demoOffline demoProc ⟨"", "href", "//other.example/path"⟩).stdout =
      ["Error checking link https://other.example/path: " ++
        "Get \"https://other.example/path\": dial tcp: connection refused\n"] ∧
     (checkAttr demoOffline demoProc ⟨"", "href", "//other.example/path"⟩).lc = demoProc.lc) ∧
    (main demoOffline "https://example.com/\n").trace.any Event.answered = false ∧
    (main demoOffline "https://example.com/\n").checker = some demoProc.lc ∧
    demoProc.lc.deadLink = false :=
  have h := checkLink_transport_error demoOffline
    (demoProc.log (.resolve "//other.example/path"))
    { URL.zero with Scheme := "https", Host := "other.example", Path := "/path" }
    "other.example" { Method := "GET", URL := "https://other.example/path", Header := [] }
    "Get \"https://other.example/path\": dial tcp: connection refused" rfl rfl rfl
  ⟨h.2.2.2.1 demoProc ⟨"", "href", "//other.example/path"⟩ rfl rfl rfl,
   by decide, by decide,
   h.2.2.2.2 "https://example.com/\n" demoProc.lc (by decide) (by decide)⟩

/-- C4: when the public-suffix lookup on the host name of `link` fails, `checkLink`
returns no error, writes nothing, leaves the session as it was and calls neither
`http.NewRequest` nor the client (the log grows by the lookup alone); the loop body of
`CheckLinks` that made the call writes nothing either. -/
theorem checkLink_unregistrable_host (L : Lib) (p : Proc) (link : URL) (e : Err)
    (hdom : L.effectiveTLDPlusOne (L.hostname link) = .error e) :
    (checkLink L p link).1 = none ∧
    (checkLink L p link).2.stdout = p.stdout ∧
    (checkLink L p link).2.lc = p.lc ∧
    (checkLink L p link).2.trace = p.trace ++ [.filter (L.hostname link)] ∧
    ∀ (p₀ : Proc) (attr : Attribute), attr.Key = "href" →
      parseLink L p₀.lc attr.Val = .ok link → p₀.log (.resolve attr.Val) = p →
      (checkAttr L p₀ attr).stdout = p₀.stdout ∧ (checkAttr L p₀ attr).lc = p₀.lc ∧
      (checkAttr L p₀ attr).trace =
        p₀.trace ++ [.resolve attr.Val, .filter (L.hostname link)] := by
  have h := checkLink_filtered L p link e hdom
  refine ⟨by rw [h], by rw [h]; rfl, by rw [h]; rfl, by rw [h]; rfl, ?_⟩
  intro p₀ attr hkey hparse hp
  rw [checkAttr_resolved L p₀ attr link hkey hparse, hp, h]
  subst hp
  refine ⟨rfl, rfl, ?_⟩
  simp [Proc.log]

/-- Example for C4: in the small world a `mailto:` target has the empty host name, for
which the lookup fails. -/
theorem checkLink_unregistrable_host_witness :
    (checkAttr demo demoProc ⟨"", "href", "mailto:a@b.com"⟩).stdout = [] ∧
    (checkAttr demo demoProc ⟨"", "href", "mailto:a@b.com"⟩).lc = demoProc.lc ∧
    (checkAttr demo demoProc ⟨"", "href", "mailto:a@b.com"⟩).trace =
      [.resolve "mailto:a@b.com", .filter ""] :=
  (checkLink_unregistrable_host demo (demoProc.log (.resolve "mailto:a@b.com"))
    { URL.zero with Scheme := "mailto", Opaque := "a@b.com" }
    "publicsuffix: cannot derive eTLD+1 for domain \"\"" rfl).2.2.2.2
    demoProc ⟨"", "href", "mailto:a@b.com"⟩ rfl rfl rfl

/-- C5: when `url.Parse` accepts `href` and the parsed reference has a scheme, `parseLink`
returns exactly that reference, whatever the session (its base URL included). -/
theorem parseLink_absolute_unchanged (L : Lib) (href : String) (link : URL)
    (hparse : L.urlParse href = .ok link) (hscheme : link.Scheme ≠ "") :
    ∀ lc : LinkChecker, parseLink L lc href = .ok link := by
  intro lc
  unfold parseLink
  simp only [hparse, if_neg hscheme]

/-- Example for C5: `http://example.invalid/missing` under two different base URLs. -/
theorem parseLink_absolute_unchanged_witness :
    parseLink demo demoProc.lc "http://example.invalid/missing" =
      .ok { URL.zero with Scheme := "http", Host := "example.invalid", Path := "/missing" } ∧
    parseLink demo (NewLinkChecker URL.zero) "http://example.invalid/missing" =
      .ok { URL.zero with Scheme := "http", Host := "example.invalid", Path := "/missing" } :=
  have h := parseLink_absolute_unchanged demo "http://example.invalid/missing"
    { URL.zero with Scheme := "http", Host := "example.invalid", Path := "/missing" }
    rfl (by decide)
  ⟨h demoProc.lc, h (NewLinkChecker URL.zero)⟩

/-! ## Reference resolution -/

/-- Setting the path leaves the scheme alone. -/
theorem URL.withPath_Scheme (L : Lib) (url : URL) (p : String) :
    (url.withPath L p).Scheme = url.Scheme := by
  unfold URL.withPath
  cases L.setPath p with
  | error e => rfl
  | ok pr => rfl

/-- Setting the path leaves the host alone. -/
theorem URL.withPath_Host (L : Lib) (url : URL) (p : String) :
    (url.withPath L p).Host = url.Host := by
  unfold URL.withPath
  cases L.setPath p with
  | error e => rfl
  | ok pr => rfl

/-- A reference without scheme takes the scheme of the base. -/
theorem ResolveReference_Scheme (L : Lib) (u ref : URL) (hscheme : ref.Scheme = "") :
    (ResolveReference L u ref).Scheme = u.Scheme := by
  unfold ResolveReference
  simp only [hscheme, if_true]
  split_ifs <;> simp [URL.withPath_Scheme]

/-- A reference with a host of its own keeps it. -/
theorem ResolveReference_own_host (L : Lib) (u ref : URL) (hhost : ref.Host ≠ "") :
    (ResolveReference L u ref).Host = ref.Host := by
  unfold ResolveReference
  rw [if_pos (Or.inr (Or.inl hhost)), URL.withPath_Host]
  split <;> rfl

/-- A reference without scheme, host, user information and opaque part takes the host of
a base that has no opaque part. -/
theorem ResolveReference_base_host (L : Lib) (u ref : URL) (hscheme : ref.Scheme = "")
    (hhost : ref.Host = "") (huser : ref.User = none) (hopq : ref.Opaque = "")
    (hbase : u.Opaque = "") :
    (ResolveReference L u ref).Host = u.Host := by
  unfold ResolveReference
  simp only [hscheme, hhost, huser, hopq, hbase, ne_eq, not_true_eq_false, or_self,
    if_false, and_false, if_true]
  rw [URL.withPath_Host]

/-- C6 as stated fails: under the base `https://example.com/` the scheme-relative
reference `//other.example/path` parses without scheme, and `parseLink` returns a URL
whose host is `other.example`, not the host of the base; and under a base that itself
has no scheme (`example.com`, which `url.Parse` accepts) the reference `/about` resolves
to a URL without scheme. -/
theorem parseLink_scheme_relative_keeps_own_host :
    (∃ ref u, demo.urlParse "//other.example/path" = .ok ref ∧ ref.Scheme = "" ∧
      parseLink demo demoProc.lc "//other.example/path" = .ok u ∧
      demoProc.lc.baseURL.Host = "example.com" ∧ u.Host = "other.example" ∧
      u.Host ≠ demoProc.lc.baseURL.Host) ∧
    (∃ base ref u, demo.urlParse "example.com" = .ok base ∧
      demo.urlParse "/about" = .ok ref ∧ ref.Scheme = "" ∧
      parseLink demo (NewLinkChecker base) "/about" = .ok u ∧ u.Scheme = "") :=
  ⟨⟨_, _, rfl, rfl, rfl, rfl, rfl, by decide⟩, ⟨_, _, _, rfl, rfl, rfl, rfl, rfl⟩⟩

/-- C6, amended: when `url.Parse` accepts `href` and the parsed reference has no scheme,
`parseLink` returns a URL with the scheme of the base (so an absolute URL whenever the
base is absolute); its host is the host of the base when the reference has no host, user
information or opaque part of its own and the base has no opaque part; a reference with
a host of its own keeps that host. -/
theorem parseLink_relative_resolved (L : Lib) (lc : LinkChecker) (href : String) (ref : URL)
    (hparse : L.urlParse href = .ok ref) (hscheme : ref.Scheme = "") :
    ∃ u, parseLink L lc href = .ok u ∧
      u.Scheme = lc.baseURL.Scheme ∧
      (lc.baseURL.Scheme ≠ "" → u.Scheme ≠ "") ∧
      (ref.Host = "" → ref.User = none → ref.Opaque = "" → lc.baseURL.Opaque = "" →
        u.Host = lc.baseURL.Host) ∧
      (ref.Host ≠ "" → u.Host = ref.Host) := by
  refine ⟨ResolveReference L lc.baseURL ref, ?_, ?_, ?_, ?_, ?_⟩
  · unfold parseLink
    simp only [hparse, if_pos hscheme]
  · exact ResolveReference_Scheme L lc.baseURL ref hscheme
  · intro hb
    rw [ResolveReference_Scheme L lc.baseURL ref hscheme]
    exact hb
  · intro hhost huser hopq hbase
    exact ResolveReference_base_host L lc.baseURL ref hscheme hhost huser hopq hbase
  · intro hhost
    exact ResolveReference_own_host L lc.baseURL ref hhost

/-- Example for C6, amended: `/about` under the base `https://example.com/`. -/
theorem parseLink_relative_resolved_witness :
    ∃ u, parseLink demo demoProc.lc "/about" = .ok u ∧ u.Scheme = "https" ∧
      u.Host = "example.com" :=
  have h := parseLink_relative_resolved demo demoProc.lc "/about"
    { URL.zero with Path := "/about" } rfl rfl
  h.elim fun u hu => ⟨u, hu.1, hu.2.1, hu.2.2.2.1 rfl rfl rfl rfl⟩

/-! ## The claims about the walk -/

/-- The steps of one link candidate contain exactly one Resolver call, for that
candidate. -/
theorem linkSteps_hrefs (L : Lib) (base : URL) (href : String) :
    (linkSteps L base href).filterMap Call.href? = [href] := by
  unfold linkSteps
  cases hparse : parseLink L (NewLinkChecker base) href with
  | error e => simp [Call.href?]
  | ok link =>
    cases hdom : L.effectiveTLDPlusOne (L.hostname link) with
    | error e => simp [Call.href?, hdom]
    | ok dom =>
      cases hreq : L.newRequest "GET" (L.urlString link) with
      | error e => simp [Call.href?, hdom, hreq]
      | ok req => simp [Call.href?, hdom, hreq]

/-- The Resolver calls among the steps of a list of candidates are these candidates. -/
theorem flatMap_linkSteps_hrefs (L : Lib) (base : URL) (hrefs : List String) :
    (hrefs.flatMap (linkSteps L base)).filterMap Call.href? = hrefs := by
  induction hrefs with
  | nil => rfl
  | cons href rest ih =>
    rw [List.flatMap_cons, List.filterMap_append, linkSteps_hrefs, ih]
    rfl

/-- The steps of one link candidate are an initial part of Resolver, Domain Filter,
Prober. -/
theorem linkSteps_order (L : Lib) (base : URL) (href : String) :
    ∃ host req, linkSteps L base href <+:
      [Call.resolve href, Call.filter host, Call.probe req] := by
  unfold linkSteps
  cases hparse : parseLink L (NewLinkChecker base) href with
  | error e => exact ⟨"", ⟨"", "", []⟩, [_, _], rfl⟩
  | ok link =>
    cases hdom : L.effectiveTLDPlusOne (L.hostname link) with
    | error e =>
      simp only [hdom]
      exact ⟨L.hostname link, ⟨"", "", []⟩, [_], rfl⟩
    | ok dom =>
      cases hreq : L.newRequest "GET" (L.urlString link) with
      | error e =>
        simp only [hdom, hreq]
        exact ⟨L.hostname link, ⟨"", "", []⟩, [_], rfl⟩
      | ok req =>
        simp only [hdom, hreq]
        exact ⟨L.hostname link, _, [], rfl⟩

/-- C7: `CheckLinks` walks the tree depth-first, pre-order, in document order.  The calls
it makes are, in order, the steps of the link candidates `anchorHrefs node` (the `href`
values of the `a` elements, pre-order, left to right, in attribute order), one candidate
after the other; so the values handed to the resolver are exactly these candidates in
that order, the steps of one candidate run in the order Resolver, Domain Filter, Prober,
and the probes are issued in document order. -/
theorem CheckLinks_document_order (L : Lib) (p : Proc) (node : Node) :
    (CheckLinks L p node).trace.map Event.call =
      p.trace.map Event.call ++ (anchorHrefs node).flatMap (linkSteps L p.lc.baseURL) ∧
    ((CheckLinks L p node).trace.map Event.call).filterMap Call.href? =
      (p.trace.map Event.call).filterMap Call.href? ++ anchorHrefs node ∧
    ((CheckLinks L p node).trace.map Event.call).filter Call.isProbe =
      (p.trace.map Event.call).filter Call.isProbe ++
        (anchorHrefs node).flatMap
          (fun href => (linkSteps L p.lc.baseURL href).filter Call.isProbe) ∧
    (∀ href, ∃ host req, linkSteps L p.lc.baseURL href <+:
      [Call.resolve href, Call.filter host, Call.probe req]) := by
  obtain ⟨_, evs, lines, ht, _, _, hc, _, _, _⟩ := CheckLinks_progress L p node
  have hcalls : (CheckLinks L p node).trace.map Event.call =
      p.trace.map Event.call ++ (anchorHrefs node).flatMap (linkSteps L p.lc.baseURL) := by
    rw [ht, List.map_append, hc]
  refine ⟨hcalls, ?_, ?_, fun href => linkSteps_order L p.lc.baseURL href⟩
  · rw [hcalls, List.filterMap_append, flatMap_linkSteps_hrefs]
  · rw [hcalls, List.filter_append, List.filter_flatMap]

/-- Example for C7: the page of the small world.  The `href` of the paragraph and the
`class` of the second anchor are not link candidates; the three candidates are resolved
in document order, and the two probes are those of the first two. -/
theorem CheckLinks_document_order_witness :
    ((CheckLinks demo demoProc demoDoc).trace.map Event.call).filterMap Call.href? =
      ["/about", "http://example.invalid/missing", "mailto:a@b.com"] ∧
    (((CheckLinks demo demoProc demoDoc).trace.map Event.call).filter Call.isProbe).map
      (fun call => match call with
        | .probe req => req.URL
        | _ => "") =
      ["https://example.com/about", "http://example.invalid/missing"] :=
  have h := CheckLinks_document_order demo demoProc demoDoc
  ⟨h.2.1.trans (by decide), by rw [h.2.2.1]; decide⟩

/-- The loop body on an `href` value does what the specification lets one link candidate
do. -/
theorem checkHref_eq_attempt (L : Lib) (p : Proc) (href : String) :
    checkHref L p href = attempt L p href := by
  have hlc : (p.log (.resolve href)).lc = p.lc := rfl
  have hpl : parseLink L (NewLinkChecker p.lc.baseURL) href = parseLink L p.lc href := rfl
  have hsp : ∀ req, setProbeHeaders L (NewLinkChecker p.lc.baseURL) req =
      setProbeHeaders L p.lc req := fun _ => rfl
  have htr : ∀ host, ((p.log (.resolve href)).log (.filter host)).trace =
      p.trace ++ [.resolve href, .filter host] := by
    intro host
    simp [Proc.log]
  unfold checkHref attempt linkOutcome
  simp only [hlc, hpl, hsp]
  cases hparse : parseLink L p.lc href with
  | error e => simp [Proc.log, Proc.print, parseErrorLine]
  | ok link =>
    simp only []
    cases hdom : L.effectiveTLDPlusOne (L.hostname link) with
    | error e =>
      rw [checkLink_filtered L _ link e hdom]
      simp [Proc.log]
    | ok dom =>
      cases hreq : L.newRequest "GET" (L.urlString link) with
      | error e =>
        rw [checkLink_no_request L _ link dom e hdom hreq]
        simp [Proc.log, Proc.print, checkErrorLine]
      | ok req =>
        cases hdo : L.clientDo ((p.log (.resolve href)).log (.filter (L.hostname link))).trace
            (setProbeHeaders L p.lc req) with
        | error e =>
          rw [checkLink_transport L _ link dom req e hdom hreq hdo]
          rw [htr] at hdo
          simp [Proc.log, Proc.print, checkErrorLine, hdo]
        | ok resp =>
          rw [checkLink_response L _ link dom req resp hdom hreq hdo]
          rw [htr] at hdo
          by_cases hst : resp.StatusCode ≥ 400
          · simp [Proc.log, deadLinkLine, hdo, hst]
          · simp [Proc.log, hdo, hst]

/-- The attribute loop is the loop body run over the `href` values, in attribute order. -/
theorem checkAttrs_eq_foldl (L : Lib) (attrs : List Attribute) :
    ∀ p : Proc, checkAttrs L p attrs = (hrefValues attrs).foldl (checkHref L) p := by
  induction attrs with
  | nil => intro p; rfl
  | cons attr rest ih =>
    intro p
    rw [checkAttrs, ih, hrefValues_cons, List.foldl_append]
    unfold checkAttr
    by_cases h : attr.Key = "href"
    · simp only [if_pos h, List.foldl_cons, List.foldl_nil]
    · simp only [if_neg h, List.foldl_nil]

mutual
/-- The walk of a tree is the loop body run over its link candidates, in document
order. -/
theorem CheckLinks_eq_foldl (L : Lib) (p : Proc) :
    ∀ node : Node, CheckLinks L p node = (anchorHrefs node).foldl (checkHref L) p
  | .mk typ data attr children => by
    rw [CheckLinks, anchorHrefs, List.foldl_append]
    by_cases h : typ = NodeType.ElementNode ∧ data = "a"
    · simp only [if_pos h]
      rw [CheckLinksChildren_eq_foldl L _ children, checkAttrs_eq_foldl]
    · simp only [if_neg h, List.foldl_nil]
      rw [CheckLinksChildren_eq_foldl L _ children]
/-- The walk of a list of siblings is the loop body run over their link candidates. -/
theorem CheckLinksChildren_eq_foldl (L : Lib) (p : Proc) :
    ∀ nodes : List Node,
      CheckLinksChildren L p nodes = (anchorHrefsOfList nodes).foldl (checkHref L) p
  | [] => by
    rw [CheckLinksChildren, anchorHrefsOfList]
    rfl
  | child :: rest => by
    rw [CheckLinksChildren, anchorHrefsOfList, List.foldl_append,
      CheckLinks_eq_foldl L p child, CheckLinksChildren_eq_foldl L _ rest]
end

/-- After a resolver failure the candidate makes no further call. -/
theorem linkSteps_of_parse_error (L : Lib) (base : URL) (href : String) (err : Err)
    (hparse : parseLink L (NewLinkChecker base) href = .error err) :
    linkSteps L base href = [.resolve href] := by
  unfold linkSteps
  simp only [hparse]

/-- C8: failures on single links never abort the scan.  Whatever the library answers,
`CheckLinks` returns, and its result is the result of attempting the link candidates of
the tree one after the other, each once, in document order, each with the full treatment
of a single link (`attempt`) whatever happened to the candidates before it.  So the
Resolver calls it made are exactly the candidates, and all its calls are the steps of the
candidates in order.  When the resolver fails on a candidate, that candidate contributes
the Resolver call alone, while the candidates before and after it contribute all their
steps; the loop body writes the one line "Error parsing link: <error>", and the walk goes
on with the remaining attributes of the node and then with its children. -/
theorem CheckLinks_attempts_every_href (L : Lib) (p : Proc) (node : Node) :
    (∃ evs, (CheckLinks L p node).trace = p.trace ++ evs ∧
      (evs.map Event.call).filterMap Call.href? = anchorHrefs node) ∧
    (∀ (q : Proc) (attr : Attribute) (err : Err), attr.Key = "href" →
      parseLink L q.lc attr.Val = .error err →
      checkAttr L q attr =
        { lc := q.lc, stdout := q.stdout ++ ["Error parsing link: " ++ err ++ "\n"],
          trace := q.trace ++ [.resolve attr.Val] } ∧
      ∀ (rest : List Attribute) (children : List Node),
        CheckLinks L q (.mk .ElementNode "a" (attr :: rest) children) =
          CheckLinksChildren L (checkAttrs L
            { lc := q.lc, stdout := q.stdout ++ ["Error parsing link: " ++ err ++ "\n"],
              trace := q.trace ++ [.resolve attr.Val] } rest) children) ∧
    CheckLinks L p node = (anchorHrefs node).foldl (attempt L) p ∧
    (CheckLinks L p node).trace.map Event.call =
      p.trace.map Event.call ++ (anchorHrefs node).flatMap (linkSteps L p.lc.baseURL) ∧
    (∀ (before after : List String) (href : String) (err : Err),
      anchorHrefs node = before ++ href :: after →
      parseLink L p.lc href = .error err →
      (CheckLinks L p node).trace.map Event.call =
        p.trace.map Event.call ++ before.flatMap (linkSteps L p.lc.baseURL) ++
          [Call.resolve href] ++ after.flatMap (linkSteps L p.lc.baseURL)) := by
  have hcalls : (CheckLinks L p node).trace.map Event.call =
      p.trace.map Event.call ++ (anchorHrefs node).flatMap (linkSteps L p.lc.baseURL) := by
    obtain ⟨_, evs, lines, ht, _, _, hc, _, _, _⟩ := CheckLinks_progress L p node
    rw [ht, List.map_append, hc]
  refine ⟨?_, ?_, ?_, hcalls, ?_⟩
  · obtain ⟨_, evs, lines, ht, _, _, hc, _, _, _⟩ := CheckLinks_progress L p node
    exact ⟨evs, ht, by rw [hc, flatMap_linkSteps_hrefs]⟩
  · intro q attr err hkey hparse
    have hlc : (q.log (.resolve attr.Val)).lc = q.lc := rfl
    have hattr : checkAttr L q attr =
        { lc := q.lc, stdout := q.stdout ++ ["Error parsing link: " ++ err ++ "\n"],
          trace := q.trace ++ [.resolve attr.Val] } := by
      unfold checkAttr checkHref
      simp only [if_pos hkey, hlc, hparse]
      rfl
    refine ⟨hattr, ?_⟩
    intro rest children
    rw [CheckLinks]
    simp only [and_self, if_true, checkAttrs, hattr]
  · have hfun : checkHref L = attempt L := by
      funext q href
      exact checkHref_eq_attempt L q href
    rw [CheckLinks_eq_foldl, hfun]
  · intro before after href err hsplit hparse
    rw [hcalls, hsplit, List.flatMap_append, List.flatMap_cons,
      linkSteps_of_parse_error L p.lc.baseURL href err hparse]
    simp only [List.append_assoc]

/-- Example for C8: in the small world `%zz` is no URL reference.  An anchor carries it
and, after it, a link answered with 404, and has a child anchor `/about`: the error line
is followed by the dead-link line, both later links are filtered and probed, and the flag
is set. -/
theorem CheckLinks_attempts_every_href_witness :
    (CheckLinks demo demoProc
      (.mk .ElementNode "a"
        [⟨"", "href", "%zz"⟩, ⟨"", "href", "http://example.invalid/missing"⟩]
        [.mk .ElementNode "a" [⟨"", "href", "/about"⟩] []])).stdout =
      ["Error parsing link: parse \"%zz\": invalid URL escape \"%zz\"\n",
       "Dead link found: http://example.invalid/missing (404)\n"] ∧
    (CheckLinks demo demoProc
      (.mk .ElementNode "a"
        [⟨"", "href", "%zz"⟩, ⟨"", "href", "http://example.invalid/missing"⟩]
        [.mk .ElementNode "a" [⟨"", "href", "/about"⟩] []])).lc.deadLink = true ∧
    ((CheckLinks demo demoProc
      (.mk .ElementNode "a"
        [⟨"", "href", "%zz"⟩, ⟨"", "href", "http://example.invalid/missing"⟩]
        [.mk .ElementNode "a" [⟨"", "href", "/about"⟩] []])).trace.map Event.call).map
      (fun call => match call with
        | .resolve href => "resolve " ++ href
        | .filter host => "filter " ++ host
        | .probe req => "probe " ++ req.URL) =
      ["resolve %zz",
       "resolve http://example.invalid/missing", "filter example.invalid",
       "probe http://example.invalid/missing",
       "resolve /about", "filter example.com", "probe https://example.com/about"] :=
  have h := CheckLinks_attempts_every_href demo demoProc
    (.mk .ElementNode "a"
      [⟨"", "href", "%zz"⟩, ⟨"", "href", "http://example.invalid/missing"⟩]
      [.mk .ElementNode "a" [⟨"", "href", "/about"⟩] []])
  have hstep := (h.2.1 demoProc ⟨"", "href", "%zz"⟩
    "parse \"%zz\": invalid URL escape \"%zz\"" rfl rfl).2
    [⟨"", "href", "http://example.invalid/missing"⟩]
    [.mk .ElementNode "a" [⟨"", "href", "/about"⟩] []]
  have hsplit := h.2.2.2.2 [] ["http://example.invalid/missing", "/about"] "%zz"
    "parse \"%zz\": invalid URL escape \"%zz\"" rfl rfl
  ⟨by rw [hstep]; decide, by rw [h.2.2.1]; decide, by rw [hsplit]; decide⟩

/-! ## The claims about `main` -/

/-- When `main` reaches the walk, the target parsed, the page was fetched, and the
outcome is the one of the walk started from a fresh session. -/
theorem main_walked (L : Lib) (stdin : String) (lc : LinkChecker) (doc : Node)
    (hwalk : (main L stdin).walked = some (lc, doc)) :
    L.urlParse (L.trimSpace (L.readString stdin)) = .ok lc.baseURL ∧
    fetchHTML L (L.trimSpace (L.readString stdin)) = .ok doc ∧
    lc = NewLinkChecker lc.baseURL ∧
    main L stdin =
      (let p := CheckLinks L
        { lc := lc,
          stdout := ["Enter the URL of the website to check for dead links: ",
            "Checking for dead links. This may take some time...\n"],
          trace := [] } doc
       { stdout := if p.lc.deadLink = false then p.stdout ++ ["No dead links found.\n"]
                   else p.stdout,
         stderr := [], exitCode := 0, checker := some p.lc, walked := some (lc, doc),
         trace := p.trace }) := by
  unfold main at hwalk ⊢
  cases hparse : L.urlParse (L.trimSpace (L.readString stdin)) with
  | error e => simp [hparse] at hwalk
  | ok baseURL =>
    simp only [hparse] at hwalk ⊢
    cases hfetch : fetchHTML L (L.trimSpace (L.readString stdin)) with
    | error e => simp [hfetch] at hwalk
    | ok d =>
      simp only [hfetch, Option.some.injEq, Prod.mk.injEq] at hwalk ⊢
      obtain ⟨h₁, h₂⟩ := hwalk
      subst h₁ h₂
      exact ⟨rfl, rfl, rfl, rfl⟩

/-- C9: when `main` reaches the walk, the flag starts false and ends true exactly if a
probe of the walk was answered with a status of 400 or more; what `main` writes is what
the walk wrote, followed by the line "No dead links found." exactly if there was no such
probe; the walk itself never writes that line, and it wrote a "Dead link found" line
exactly if there was such a probe.  A flag that is set stays set through any walk. -/
theorem main_final_line (L : Lib) (stdin : String) (lc : LinkChecker) (doc : Node)
    (hwalk : (main L stdin).walked = some (lc, doc)) :
    lc.deadLink = false ∧
    (∃ final, (main L stdin).checker = some final ∧
      final.deadLink = (main L stdin).trace.any Event.isDead) ∧
    (∃ walkOut, (main L stdin).stdout =
        walkOut ++ (if (main L stdin).trace.any Event.isDead then []
                    else ["No dead links found.\n"]) ∧
      "No dead links found.\n" ∉ walkOut ∧
      walkOut.any isDeadLine = (main L stdin).trace.any Event.isDead) ∧
    ("No dead links found.\n" ∈ (main L stdin).stdout ↔
      (main L stdin).trace.any Event.isDead = false) ∧
    (∀ (q : Proc) (node : Node), q.lc.deadLink = true →
      (CheckLinks L q node).lc.deadLink = true) := by
  obtain ⟨_, _, hlc, hmain⟩ := main_walked L stdin lc doc hwalk
  have hfresh : lc.deadLink = false := by rw [hlc]; rfl
  obtain ⟨_, evs, lines, ht, ho, hd, _, hl, hn, _⟩ := CheckLinks_progress L
    { lc := lc,
      stdout := ["Enter the URL of the website to check for dead links: ",
        "Checking for dead links. This may take some time...\n"],
      trace := [] } doc
  simp only [hfresh, Bool.false_or, List.nil_append] at ht hd
  have hnot : "No dead links found.\n" ∉
      ["Enter the URL of the website to check for dead links: ",
        "Checking for dead links. This may take some time...\n"] ++ lines := by
    intro hmem
    rcases List.mem_append.mp hmem with h | h
    · revert h; decide
    · exact hn _ h rfl
  have hout : (main L stdin).stdout =
      (["Enter the URL of the website to check for dead links: ",
        "Checking for dead links. This may take some time...\n"] ++ lines) ++
      (if (main L stdin).trace.any Event.isDead then [] else ["No dead links found.\n"]) := by
    rw [hmain]
    simp only [hd, ht, ho]
    cases evs.any Event.isDead <;> simp
  have htrace : (main L stdin).trace = evs := by rw [hmain]; exact ht
  refine ⟨hfresh, ⟨_, by rw [hmain], ?_⟩, ⟨_, hout, hnot, ?_⟩, ?_, ?_⟩
  · rw [htrace]; exact hd
  · rw [List.any_append, hl, htrace]
    have : ["Enter the URL of the website to check for dead links: ",
        "Checking for dead links. This may take some time...\n"].any isDeadLine = false := by
      decide
    rw [this, Bool.false_or]
  · rw [hout]
    cases hany : (main L stdin).trace.any Event.isDead
    · simp
    · simp only [if_true, List.append_nil]
      constructor
      · intro h; exact absurd h hnot
      · intro h; cases h
  · intro q node hq
    obtain ⟨_, evs', _, _, _, hd', _⟩ := CheckLinks_progress L q node
    rw [hd', hq, Bool.true_or]

/-- Example for C9: in the small world the page `https://example.com/` has a link
answered with 404, and the run ends without the final line; the page
`https://example.com/empty` has no anchor, and the run ends with the final line. -/
theorem main_final_line_witness :
    ((main demo "https://example.com/\n").trace.any Event.isDead = true ∧
      ¬ "No dead links found.\n" ∈ (main demo "https://example.com/\n").stdout ∧
      (main demo "https://example.com/\n").stdout =
        ["Enter the URL of the website to check for dead links: ",
         "Checking for dead links. This may take some time...\n",
         "Dead link found: http://example.invalid/missing (404)\n"]) ∧
    ("No dead links found.\n" ∈ (main demo "https://example.com/empty\n").stdout ∧
      (main demo "https://example.com/empty\n").stdout =
        ["Enter the URL of the website to check for dead links: ",
         "Checking for dead links. This may take some time...\n",
         "No dead links found.\n"]) :=
  have h := main_final_line demo "https://example.com/\n" demoProc.lc demoDoc rfl
  have h' := main_final_line demo "https://example.com/empty\n"
    (NewLinkChecker { URL.zero with Scheme := "https", Host := "example.com", Path := "/empty" })
    emptyDoc rfl
  ⟨⟨by decide, fun hmem => absurd (h.2.2.2.1.mp hmem) (by decide), by decide⟩,
   ⟨h'.2.2.2.1.mpr (by decide), by decide⟩⟩

/-- C10: when `main` reaches the walk, the base URL of the session is the URL that
`url.Parse` returned for the target, it has a scheme (`http` or `https`), and the flag
is still false; when parsing the target fails, the run ends with exit code 1 before a
session exists and before any call of the walk. -/
theorem main_base_url_absolute (L : Lib) (stdin : String) :
    (∀ (lc : LinkChecker) (doc : Node), (main L stdin).walked = some (lc, doc) →
      L.urlParse (L.trimSpace (L.readString stdin)) = .ok lc.baseURL ∧
      (lc.baseURL.Scheme = "http" ∨ lc.baseURL.Scheme = "https") ∧
      lc.baseURL.Scheme ≠ "" ∧ lc.deadLink = false) ∧
    (∀ err : Err, L.urlParse (L.trimSpace (L.readString stdin)) = .error err →
      (main L stdin).exitCode = 1 ∧ (main L stdin).checker = none ∧
      (main L stdin).walked = none ∧ (main L stdin).trace = [] ∧
      (main L stdin).stderr = ["Error parsing base URL: " ++ err ++ "\n"]) := by
  refine ⟨?_, ?_⟩
  · intro lc doc hwalk
    obtain ⟨hparse, hfetch, hlc, _⟩ := main_walked L stdin lc doc hwalk
    have hscheme : lc.baseURL.Scheme = "http" ∨ lc.baseURL.Scheme = "https" := by
      unfold fetchHTML httpGet at hfetch
      simp only [hparse] at hfetch
      by_contra hno
      simp [if_neg hno] at hfetch
    refine ⟨hparse, hscheme, ?_, by rw [hlc]; rfl⟩
    rcases hscheme with h | h <;> rw [h] <;> decide
  · intro err hparse
    unfold main
    simp [hparse]

/-- Example for C10: the target `https://example.com/` reaches the walk with that base
URL; the target `%zz` does not parse and the run ends with exit code 1 and no session. -/
theorem main_base_url_absolute_witness :
    (demo.urlParse (demo.trimSpace (demo.readString "https://example.com/\n")) =
        .ok demoProc.lc.baseURL ∧
      (demoProc.lc.baseURL.Scheme = "http" ∨ demoProc.lc.baseURL.Scheme = "https") ∧
      demoProc.lc.baseURL.Scheme ≠ "" ∧ demoProc.lc.deadLink = false) ∧
    ((main demo "%zz\n").exitCode = 1 ∧ (main demo "%zz\n").checker = none ∧
      (main demo "%zz\n").walked = none ∧ (main demo "%zz\n").trace = [] ∧
      (main demo "%zz\n").stderr =
        ["Error parsing base URL: " ++ "parse \"%zz\": invalid URL escape \"%zz\"" ++ "\n"]) :=
  ⟨(main_base_url_absolute demo "https://example.com/\n").1 demoProc.lc demoDoc rfl,
   (main_base_url_absolute demo "%zz\n").2 "parse \"%zz\": invalid URL escape \"%zz\"" rfl⟩

end Deadcrawl
